import Mathlib

/-!
Shallow embedding of `src/RJSArray.cpp` (realm-js): the array-semantics
adapter over a persisted ordered link collection.  Host property keys,
element coercion and the storage primitives of the `List`/`LinkView`
collaborators are modelled explicitly; each `Array…` definition below
mirrors the control flow of the C++ function of the same name, with the
C++ `try`/`catch` blocks rendered as explicit routing on an error value.
-/

set_option autoImplicit false

namespace RJSArray

variable {α : Type}

/-- Error taxonomy.  Each constructor corresponds to one exception the C++
code can throw (or receive from a collaborator), named after the spec's
error taxonomy: `staleReference` for a detached list, `illegalMutation`
for `"Can only mutate lists within a transaction."`, `readOnlyProperty`
for `"The 'length' property is readonly."`, `argumentCount` for the
argument-count validators, `coercion` for a failed
`RJSAccessor::to_object_index`, and `outOfRange` for `std::out_of_range`
from a bounds-checked element access. -/
inductive Exc where
  | staleReference
  | illegalMutation
  | readOnlyProperty
  | argumentCount
  | coercion
  | outOfRange
  deriving DecidableEq, Repr

/-- A host-supplied property key, after the string analysis the C++ code
performs: the literal `"length"`, a string parsing to a non-negative
index `i`, or any other string (whose `std::stol` parse fails with
`std::invalid_argument`, treated as "not my property"). -/
inductive Key where
  | length
  | index (i : Nat)
  | other
  deriving DecidableEq, Repr

/-- The bound list handle: the `realm::List` with its attachment state,
the owning realm's transaction state, and the underlying ordered link
collection (elements abstracted as values of `α`). -/
structure BoundList (α : Type) where
  attached : Bool
  inTransaction : Bool
  elems : List α
  deriving DecidableEq, Repr

/-- Result of `ArrayGetProperty`: a JS number, a wrapped object, JS
`undefined`, `NULL` with no exception (defer to other property
handling), or `NULL` with `*jsException` set. -/
inductive JSRet (α : Type) where
  | num (n : Nat)
  | obj (a : α)
  | undef
  | defer
  | error (e : Exc)
  deriving DecidableEq, Repr

/-- Result of a named mutation entry point: a JS number, a wrapped
object, `undefined`, a JS array of wrapped objects (splice), or `NULL`
with `*jsException` set. -/
inductive MutRet (α : Type) where
  | num (n : Nat)
  | obj (a : α)
  | undef
  | arr (xs : List α)
  | error (e : Exc)
  deriving DecidableEq, Repr

/-- Modelled from the spec: `List::verify_attached` is not under `src/`;
per spec §4.1 the Attachment Guard fails with `StaleReferenceError` when
the list is detached and otherwise does nothing. -/
def verify_attached (l : BoundList α) : Except Exc Unit :=
  if l.attached then Except.ok () else Except.error Exc.staleReference

/-- `RJSVerifiedArray`: fetch the internal list and verify attachment. -/
def RJSVerifiedArray (l : BoundList α) : Except Exc Unit :=
  verify_attached l

/-- `RJSVerifiedMutableArray`: `RJSVerifiedArray`, then throw
`"Can only mutate lists within a transaction."` unless the realm is in a
write transaction. -/
def RJSVerifiedMutableArray (l : BoundList α) : Except Exc Unit :=
  match RJSVerifiedArray l with
  | Except.error e => Except.error e
  | Except.ok _ =>
      if l.inTransaction then Except.ok ()
      else Except.error Exc.illegalMutation

/-- `LinkView::remove i`: delete the slot at offset `i`. -/
def lvRemove (xs : List α) (i : Nat) : List α :=
  xs.take i ++ xs.drop (i + 1)

/-- `LinkView::insert i a`: insert `a` at offset `i` (call sites below
only ever pass `i ≤ xs.length`). -/
def lvInsert (xs : List α) (i : Nat) (a : α) : List α :=
  xs.take i ++ a :: xs.drop i

/-- `LinkView::add a`: append `a` at the end. -/
def lvAdd (xs : List α) (a : α) : List α :=
  xs ++ [a]

/-- Modelled from the spec: `List::get` is not under `src/`; it is the
bounds-checked element access that throws `std::out_of_range` for an
offset past the end (spec §4.2 `OutOfRange`). -/
def listGet (xs : List α) (i : Nat) : Except Exc α :=
  match xs[i]? with
  | some a => Except.ok a
  | none => Except.error Exc.outOfRange

/-- The `catch` cascade of `ArrayGetProperty`: `std::out_of_range`
becomes JS `undefined`; any other exception is reported through
`*jsException`.  (The `std::invalid_argument` branch — a non-index key —
is routed structurally via `Key.other` before an exception arises.) -/
def catchGet : Exc → JSRet α
  | Exc.outOfRange => JSRet.undef
  | e => JSRet.error e

/-- `ArrayGetProperty`: verified read; `"length"` returns the size;
otherwise resolve the index and materialize the element, with
out-of-range reads yielding `undefined` and non-index keys deferring. -/
def ArrayGetProperty (l : BoundList α) (k : Key) : JSRet α :=
  match RJSVerifiedArray l with
  | Except.error e => catchGet e
  | Except.ok _ =>
      match k with
      | Key.length => JSRet.num l.elems.length
      | Key.other => JSRet.defer
      | Key.index i =>
          match listGet l.elems i with
          | Except.ok a => JSRet.obj a
          | Except.error e => catchGet e

/-- `ArraySetProperty`: verified mutable access; writing `"length"`
throws the read-only error; a non-index key is silently deferred
(returns `false`, no exception); otherwise the value is coerced
(`v = none` models a coercion failure) and the element at the offset is
replaced in place, an out-of-range offset being an error.  The result
pairs the C++ `bool` return and the reported exception (if any) with the
list state after the call. -/
def ArraySetProperty (l : BoundList α) (k : Key) (v : Option α) :
    (Bool × Option Exc) × BoundList α :=
  match RJSVerifiedMutableArray l with
  | Except.error e => ((false, some e), l)
  | Except.ok _ =>
      match k with
      | Key.length => ((false, some Exc.readOnlyProperty), l)
      | Key.other => ((false, none), l)
      | Key.index i =>
          match v with
          | none => ((false, some Exc.coercion), l)
          | some a =>
              if i < l.elems.length then
                ((true, none), { l with elems := l.elems.set i a })
              else
                ((false, some Exc.outOfRange), l)

/-- `ArrayPropertyNames`: verified read; accumulate the decimal strings
`"0" … "size-1"` in ascending order. -/
def ArrayPropertyNames (l : BoundList α) : Except Exc (List String) :=
  match RJSVerifiedArray l with
  | Except.error e => Except.error e
  | Except.ok _ =>
      Except.ok ((List.range l.elems.length).map (fun i => toString i))

/-- The argument loop of `ArrayPush`: coerce each argument in turn
(`none` models a coercion failure) and `LinkView::add` it; on failure
report the error together with the collection state reached so far. -/
def pushLoop (elems : List α) : List (Option α) → Except (Exc × List α) (List α)
  | [] => Except.ok elems
  | none :: _ => Except.error (Exc.coercion, elems)
  | some a :: rest => pushLoop (lvAdd elems a) rest

/-- The argument loop of `ArrayUnshift` (with `base = 0`) and the insert
loop of `ArraySplice` (with `base` the clamped start): the `k`-th
remaining argument is coerced and inserted at offset `base + k`; on
failure report the error with the state reached so far. -/
def insertLoop (base : Nat) (elems : List α) (k : Nat) :
    List (Option α) → Except (Exc × List α) (List α)
  | [] => Except.ok elems
  | none :: _ => Except.error (Exc.coercion, elems)
  | some a :: rest => insertLoop base (lvInsert elems (base + k) a) (k + 1) rest

/-- `ArrayPush`: verified mutable access, at-least-one-argument check
(`RJSValidateArgumentCountIsAtLeast(argumentCount, 1)`), then the add
loop; returns the new size. -/
def ArrayPush (l : BoundList α) (args : List (Option α)) : MutRet α × BoundList α :=
  match RJSVerifiedMutableArray l with
  | Except.error e => (MutRet.error e, l)
  | Except.ok _ =>
      if args.length < 1 then (MutRet.error Exc.argumentCount, l)
      else
        match pushLoop l.elems args with
        | Except.ok es => (MutRet.num es.length, { l with elems := es })
        | Except.error (e, es) => (MutRet.error e, { l with elems := es })

/-- `ArrayPop`: verified mutable access; exact-zero argument check
(Modelled from the spec: `RJSValidateArgumentCount` is not under `src/`;
by its name, contrasted with the `IsAtLeast` variant used by push and
unshift, it validates that the argument count matches exactly); empty
list yields `undefined`; otherwise the element at the last offset is
materialized, then that slot removed. -/
def ArrayPop (l : BoundList α) (argumentCount : Nat) : MutRet α × BoundList α :=
  match RJSVerifiedMutableArray l with
  | Except.error e => (MutRet.error e, l)
  | Except.ok _ =>
      if argumentCount ≠ 0 then (MutRet.error Exc.argumentCount, l)
      else
        if l.elems.length = 0 then (MutRet.undef, l)
        else
          match listGet l.elems (l.elems.length - 1) with
          | Except.ok a =>
              (MutRet.obj a, { l with elems := lvRemove l.elems (l.elems.length - 1) })
          | Except.error e => (MutRet.error e, l)

/-- `ArrayShift`: symmetric to `ArrayPop`, targeting offset 0. -/
def ArrayShift (l : BoundList α) (argumentCount : Nat) : MutRet α × BoundList α :=
  match RJSVerifiedMutableArray l with
  | Except.error e => (MutRet.error e, l)
  | Except.ok _ =>
      if argumentCount ≠ 0 then (MutRet.error Exc.argumentCount, l)
      else
        if l.elems.length = 0 then (MutRet.undef, l)
        else
          match listGet l.elems 0 with
          | Except.ok a => (MutRet.obj a, { l with elems := lvRemove l.elems 0 })
          | Except.error e => (MutRet.error e, l)

/-- `ArrayUnshift`: verified mutable access, at-least-one-argument check,
then insert the `i`-th argument at offset `i`; returns the new size. -/
def ArrayUnshift (l : BoundList α) (args : List (Option α)) : MutRet α × BoundList α :=
  match RJSVerifiedMutableArray l with
  | Except.error e => (MutRet.error e, l)
  | Except.ok _ =>
      if args.length < 1 then (MutRet.error Exc.argumentCount, l)
      else
        match insertLoop 0 l.elems 0 args with
        | Except.ok es => (MutRet.num es.length, { l with elems := es })
        | Except.error (e, es) => (MutRet.error e, { l with elems := es })

/-- The start-offset clamp of `ArraySplice`:
`index = min(start, size); if (index < 0) index = max(size + index, 0)`. -/
def spliceIndex (size : Nat) (start : Int) : Nat :=
  (if min start (size : Int) < 0 then max ((size : Int) + min start (size : Int)) 0
   else min start (size : Int)).toNat

/-- The delete-count clamp of `ArraySplice`:
`remove = max(deleteCount, 0); remove = min(remove, size - index)`. -/
def spliceRemoveCount (size index : Nat) (deleteCount : Int) : Nat :=
  (min (max deleteCount 0) ((size : Int) - (index : Int))).toNat

/-- The removal loop of `ArraySplice`: `remove` times, materialize the
element at the clamped start offset and delete that slot, collecting the
removed elements in removal order. -/
def removeLoop (elems : List α) (index : Nat) :
    Nat → Except (Exc × List α) (List α × List α)
  | 0 => Except.ok ([], elems)
  | n + 1 =>
      match listGet elems index with
      | Except.error e => Except.error (e, elems)
      | Except.ok a =>
          match removeLoop (lvRemove elems index) index n with
          | Except.ok (removed, es) => Except.ok (a :: removed, es)
          | Except.error err => Except.error err

/-- `ArraySplice`: verified mutable access; clamp the start offset and
delete count; remove (collecting removed elements) before inserting the
remaining arguments at successive offsets from the clamped start; return
the removed elements as a JS array.  Calls with fewer than two arguments
are rejected by `RJSValidateArgumentCountIsAtLeast(argumentCount, 2)`
before either number is read; this embedding takes `start` and
`deleteCount` as present, so it covers exactly the calls with at least
two arguments. -/
def ArraySplice (l : BoundList α) (start deleteCount : Int)
    (inserts : List (Option α)) : MutRet α × BoundList α :=
  match RJSVerifiedMutableArray l with
  | Except.error e => (MutRet.error e, l)
  | Except.ok _ =>
      match removeLoop l.elems (spliceIndex l.elems.length start)
          (spliceRemoveCount l.elems.length (spliceIndex l.elems.length start) deleteCount) with
      | Except.error (e, es) => (MutRet.error e, { l with elems := es })
      | Except.ok (removed, es) =>
          match insertLoop (spliceIndex l.elems.length start) es 0 inserts with
          | Except.error (e, es2) => (MutRet.error e, { l with elems := es2 })
          | Except.ok es2 => (MutRet.arr removed, { l with elems := es2 })

/-- The spec's own wording of the splice start clamp: "if negative,
compute `max(length + start, 0)`; else `min(start, length)`" —
stated separately from the code's `spliceIndex` so the two can be
compared. -/
def specClampStart (length : Nat) (start : Int) : Nat :=
  (if start < 0 then max ((length : Int) + start) 0
   else min start (length : Int)).toNat

/-- The spec's own wording of the splice delete-count clamp:
"`max(0, min(deleteCount, length - start))`" (with the clamped start). -/
def specClampDelete (length clampedStart : Nat) (deleteCount : Int) : Nat :=
  (max 0 (min deleteCount ((length : Int) - (clampedStart : Int)))).toNat

lemma spliceIndex_eq_spec (size : Nat) (start : Int) :
    spliceIndex size start = specClampStart size start := by
  unfold spliceIndex specClampStart
  simp only [min_def, max_def]
  split_ifs <;> omega

lemma spliceIndex_le (size : Nat) (start : Int) : spliceIndex size start ≤ size := by
  unfold spliceIndex
  simp only [min_def, max_def]
  split_ifs <;> omega

lemma spliceRemoveCount_eq_spec (size index : Nat) (deleteCount : Int)
    (h : index ≤ size) :
    spliceRemoveCount size index deleteCount = specClampDelete size index deleteCount := by
  unfold spliceRemoveCount specClampDelete
  simp only [min_def, max_def]
  split_ifs <;> omega

lemma spliceRemoveCount_le (size index : Nat) (deleteCount : Int)
    (h : index ≤ size) :
    index + spliceRemoveCount size index deleteCount ≤ size := by
  unfold spliceRemoveCount
  simp only [min_def, max_def]
  split_ifs <;> omega

lemma lvInsert_length (xs : List α) (i : Nat) (a : α) (h : i ≤ xs.length) :
    (lvInsert xs i a).length = xs.length + 1 := by
  simp [lvInsert]
  omega

lemma take_lvInsert (xs : List α) (i : Nat) (a : α) (h : i ≤ xs.length) :
    (lvInsert xs i a).take (i + 1) = xs.take i ++ [a] := by
  unfold lvInsert
  rw [List.take_append_eq_append_take]
  have hlen : (xs.take i).length = i := by simp; omega
  rw [List.take_of_length_le (by omega), hlen]
  simp

lemma drop_lvInsert (xs : List α) (i : Nat) (a : α) (h : i ≤ xs.length) :
    (lvInsert xs i a).drop (i + 1) = xs.drop i := by
  unfold lvInsert
  rw [List.drop_append_eq_append_drop]
  have hlen : (xs.take i).length = i := by simp; omega
  rw [List.drop_eq_nil_of_le (by omega), hlen]
  simp

lemma lvRemove_length (xs : List α) (i : Nat) (h : i < xs.length) :
    (lvRemove xs i).length = xs.length - 1 := by
  simp [lvRemove]
  omega

lemma take_lvRemove (xs : List α) (i : Nat) (h : i ≤ xs.length) :
    (lvRemove xs i).take i = xs.take i := by
  unfold lvRemove
  rw [List.take_append_eq_append_take]
  have hlen : (xs.take i).length = i := by simp; omega
  rw [hlen, List.take_take]
  simp

lemma drop_lvRemove (xs : List α) (i n : Nat) (h : i ≤ xs.length) :
    (lvRemove xs i).drop (i + n) = xs.drop (i + 1 + n) := by
  unfold lvRemove
  rw [List.drop_append_eq_append_drop]
  have hlen : (xs.take i).length = i := by simp; omega
  rw [List.drop_eq_nil_of_le (by omega), hlen]
  have hn : i + n - i = n := by omega
  rw [hn, List.drop_drop]
  simp

lemma pushLoop_ok (vals : List α) :
    ∀ elems : List α, pushLoop elems (vals.map some) = Except.ok (elems ++ vals) := by
  induction vals with
  | nil => intro elems; simp [pushLoop]
  | cons a t ih => intro elems; simp [pushLoop, lvAdd, ih]

lemma pushLoop_err (vals : List α) (rest : List (Option α)) :
    ∀ elems : List α,
      pushLoop elems (vals.map some ++ none :: rest) =
        Except.error (Exc.coercion, elems ++ vals) := by
  induction vals with
  | nil => intro elems; simp [pushLoop]
  | cons a t ih => intro elems; simp [pushLoop, lvAdd, ih]

lemma insertLoop_ok (base : Nat) (vals : List α) :
    ∀ (k : Nat) (elems : List α), base + k ≤ elems.length →
      insertLoop base elems k (vals.map some) =
        Except.ok (elems.take (base + k) ++ vals ++ elems.drop (base + k)) := by
  induction vals with
  | nil =>
      intro k elems h
      simp [insertLoop, List.take_append_drop]
  | cons a t ih =>
      intro k elems h
      have h1 : base + (k + 1) ≤ (lvInsert elems (base + k) a).length := by
        rw [lvInsert_length _ _ _ h]; omega
      simp only [List.map_cons, insertLoop]
      rw [ih (k + 1) _ h1]
      have h2 : base + (k + 1) = (base + k) + 1 := by omega
      rw [h2, take_lvInsert _ _ _ h, drop_lvInsert _ _ _ h]
      simp

lemma insertLoop_err (base : Nat) (vals : List α) (rest : List (Option α)) :
    ∀ (k : Nat) (elems : List α), base + k ≤ elems.length →
      insertLoop base elems k (vals.map some ++ none :: rest) =
        Except.error (Exc.coercion,
          elems.take (base + k) ++ vals ++ elems.drop (base + k)) := by
  induction vals with
  | nil =>
      intro k elems h
      simp [insertLoop, List.take_append_drop]
  | cons a t ih =>
      intro k elems h
      have h1 : base + (k + 1) ≤ (lvInsert elems (base + k) a).length := by
        rw [lvInsert_length _ _ _ h]; omega
      simp only [List.map_cons, List.cons_append, insertLoop, List.append_eq]
      rw [ih (k + 1) _ h1]
      have h2 : base + (k + 1) = (base + k) + 1 := by omega
      rw [h2, take_lvInsert _ _ _ h, drop_lvInsert _ _ _ h]
      simp

lemma removeLoop_ok (index : Nat) :
    ∀ (n : Nat) (elems : List α), index + n ≤ elems.length →
      removeLoop elems index n =
        Except.ok ((elems.drop index).take n,
          elems.take index ++ elems.drop (index + n)) := by
  intro n
  induction n with
  | zero => intro elems h; simp [removeLoop, List.take_append_drop]
  | succ n ih =>
      intro elems h
      have hi : index < elems.length := by omega
      have h1 : index + n ≤ (lvRemove elems index).length := by
        rw [lvRemove_length _ _ hi]; omega
      have hd : (lvRemove elems index).drop index = elems.drop (index + 1) := by
        have hd0 := drop_lvRemove elems index 0 (by omega)
        simpa using hd0
      have ht : (lvRemove elems index).take index = elems.take index :=
        take_lvRemove _ _ (by omega)
      have hdn : (lvRemove elems index).drop (index + n) = elems.drop (index + 1 + n) :=
        drop_lvRemove _ _ _ (by omega)
      simp only [removeLoop, listGet, List.getElem?_eq_getElem hi]
      rw [ih _ h1, ht, hd, hdn]
      rw [List.drop_eq_getElem_cons hi, List.take_succ_cons]
      have h2 : index + 1 + n = index + (n + 1) := by omega
      rw [h2]

/-- C1 counterexample: on an attached list with no write transaction
open, `Set("length", x)` reports `IllegalMutationError`, not
`ReadOnlyPropertyError` — the mutable-array guard runs before the
`"length"` check, so the claim "always fails with `ReadOnlyPropertyError`
… regardless of whether a write transaction is open" is false. -/
theorem set_length_counterexample :
    (ArraySetProperty (⟨true, false, []⟩ : BoundList Int) Key.length (some 0)).1.2 =
        some Exc.illegalMutation ∧
      some Exc.illegalMutation ≠ some Exc.readOnlyProperty := by
  exact ⟨rfl, by decide⟩

/-- C1 (amended): `Set("length", x)` always fails and never changes the
list, for every value `x`; it fails with `ReadOnlyPropertyError` when the
list is attached and a write transaction is open, with
`IllegalMutationError` when attached but outside a write transaction, and
with `StaleReferenceError` when detached. -/
theorem set_length_always_fails {α : Type} (l : BoundList α) (v : Option α) :
    ArraySetProperty l Key.length v =
      ((false, some (if l.attached then
          (if l.inTransaction then Exc.readOnlyProperty else Exc.illegalMutation)
        else Exc.staleReference)), l) := by
  rcases l with ⟨a, t, es⟩
  cases a <;> cases t <;>
    simp [ArraySetProperty, RJSVerifiedMutableArray, RJSVerifiedArray, verify_attached]

/-- C3: every mutation operation (indexed `Set`, `Append`, `RemoveLast`,
`RemoveFirst`, `Prepend`, `Splice`) invoked while the list is attached
but no write transaction is open fails with `IllegalMutationError` and
leaves the collection unchanged. -/
theorem mutation_outside_transaction_fails {α : Type} (l : BoundList α)
    (h1 : l.attached = true) (h2 : l.inTransaction = false)
    (i : Nat) (v : Option α) (args : List (Option α)) (n : Nat) (s d : Int) :
    ArraySetProperty l (Key.index i) v = ((false, some Exc.illegalMutation), l) ∧
    ArrayPush l args = (MutRet.error Exc.illegalMutation, l) ∧
    ArrayPop l n = (MutRet.error Exc.illegalMutation, l) ∧
    ArrayShift l n = (MutRet.error Exc.illegalMutation, l) ∧
    ArrayUnshift l args = (MutRet.error Exc.illegalMutation, l) ∧
    ArraySplice l s d args = (MutRet.error Exc.illegalMutation, l) := by
  simp [ArraySetProperty, ArrayPush, ArrayPop, ArrayShift, ArrayUnshift, ArraySplice,
    RJSVerifiedMutableArray, RJSVerifiedArray, verify_attached, h1, h2]

theorem mutation_outside_transaction_fails_witness :
    ArraySetProperty (⟨true, false, [3]⟩ : BoundList Int) (Key.index 0) (some 9) =
        ((false, some Exc.illegalMutation), ⟨true, false, [3]⟩) ∧
    ArrayPush (⟨true, false, [3]⟩ : BoundList Int) [some 9] =
        (MutRet.error Exc.illegalMutation, ⟨true, false, [3]⟩) ∧
    ArrayPop (⟨true, false, [3]⟩ : BoundList Int) 0 =
        (MutRet.error Exc.illegalMutation, ⟨true, false, [3]⟩) ∧
    ArrayShift (⟨true, false, [3]⟩ : BoundList Int) 0 =
        (MutRet.error Exc.illegalMutation, ⟨true, false, [3]⟩) ∧
    ArrayUnshift (⟨true, false, [3]⟩ : BoundList Int) [some 9] =
        (MutRet.error Exc.illegalMutation, ⟨true, false, [3]⟩) ∧
    ArraySplice (⟨true, false, [3]⟩ : BoundList Int) 0 1 [some 9] =
        (MutRet.error Exc.illegalMutation, ⟨true, false, [3]⟩) :=
  mutation_outside_transaction_fails ⟨true, false, [3]⟩ rfl rfl 0 (some 9) [some 9] 0 0 1

/-- C4: every operation of the interface (`Get`, `Set`, `Enumerate`,
`Append`, `RemoveLast`, `RemoveFirst`, `Prepend`, `Splice`) invoked on a
detached list fails with `StaleReferenceError` and performs no mutation
of the collection. -/
theorem detached_operation_fails {α : Type} (l : BoundList α) (h : l.attached = false)
    (k : Key) (v : Option α) (args : List (Option α)) (n : Nat) (s d : Int) :
    ArrayGetProperty l k = JSRet.error Exc.staleReference ∧
    ArraySetProperty l k v = ((false, some Exc.staleReference), l) ∧
    ArrayPropertyNames l = Except.error Exc.staleReference ∧
    ArrayPush l args = (MutRet.error Exc.staleReference, l) ∧
    ArrayPop l n = (MutRet.error Exc.staleReference, l) ∧
    ArrayShift l n = (MutRet.error Exc.staleReference, l) ∧
    ArrayUnshift l args = (MutRet.error Exc.staleReference, l) ∧
    ArraySplice l s d args = (MutRet.error Exc.staleReference, l) := by
  simp [ArrayGetProperty, ArraySetProperty, ArrayPropertyNames, ArrayPush, ArrayPop,
    ArrayShift, ArrayUnshift, ArraySplice, RJSVerifiedMutableArray, RJSVerifiedArray,
    verify_attached, catchGet, h]

theorem detached_operation_fails_witness :
    ArrayGetProperty (⟨false, true, [3]⟩ : BoundList Int) (Key.index 0) =
        JSRet.error Exc.staleReference ∧
    ArraySetProperty (⟨false, true, [3]⟩ : BoundList Int) (Key.index 0) (some 9) =
        ((false, some Exc.staleReference), ⟨false, true, [3]⟩) ∧
    ArrayPropertyNames (⟨false, true, [3]⟩ : BoundList Int) =
        Except.error Exc.staleReference ∧
    ArrayPush (⟨false, true, [3]⟩ : BoundList Int) [some 9] =
        (MutRet.error Exc.staleReference, ⟨false, true, [3]⟩) ∧
    ArrayPop (⟨false, true, [3]⟩ : BoundList Int) 0 =
        (MutRet.error Exc.staleReference, ⟨false, true, [3]⟩) ∧
    ArrayShift (⟨false, true, [3]⟩ : BoundList Int) 0 =
        (MutRet.error Exc.staleReference, ⟨false, true, [3]⟩) ∧
    ArrayUnshift (⟨false, true, [3]⟩ : BoundList Int) [some 9] =
        (MutRet.error Exc.staleReference, ⟨false, true, [3]⟩) ∧
    ArraySplice (⟨false, true, [3]⟩ : BoundList Int) 0 1 [some 9] =
        (MutRet.error Exc.staleReference, ⟨false, true, [3]⟩) :=
  detached_operation_fails ⟨false, true, [3]⟩ rfl (Key.index 0) (some 9) [some 9] 0 0 1

/-- C5: on an attached list of length `L`, `Get(i)` with `i < L` returns
the element stored at position `i`, `Get(i)` with `i ≥ L` returns
`undefined` (no value, not an error), and `Get("length")` returns `L`. -/
theorem get_property_spec {α : Type} (l : BoundList α) (h : l.attached = true) (i : Nat) :
    (∀ hi : i < l.elems.length,
        ArrayGetProperty l (Key.index i) = JSRet.obj (l.elems.get ⟨i, hi⟩)) ∧
    (l.elems.length ≤ i → ArrayGetProperty l (Key.index i) = JSRet.undef) ∧
    ArrayGetProperty l Key.length = JSRet.num l.elems.length := by
  refine ⟨?_, ?_, ?_⟩
  · intro hi
    simp [ArrayGetProperty, RJSVerifiedArray, verify_attached, h, listGet,
      List.getElem?_eq_getElem hi]
  · intro hle
    simp [ArrayGetProperty, RJSVerifiedArray, verify_attached, h, listGet,
      List.getElem?_eq_none hle, catchGet]
  · simp [ArrayGetProperty, RJSVerifiedArray, verify_attached, h]

theorem get_property_spec_witness :
    ArrayGetProperty (⟨true, false, [7, 8]⟩ : BoundList Int) (Key.index 1) =
        JSRet.obj 8 ∧
    ArrayGetProperty (⟨true, false, [7, 8]⟩ : BoundList Int) (Key.index 5) =
        JSRet.undef ∧
    ArrayGetProperty (⟨true, false, [7, 8]⟩ : BoundList Int) Key.length =
        JSRet.num 2 :=
  ⟨(get_property_spec (⟨true, false, [7, 8]⟩ : BoundList Int) rfl 1).1 (by decide),
   (get_property_spec (⟨true, false, [7, 8]⟩ : BoundList Int) rfl 5).2.1 (by decide),
   (get_property_spec (⟨true, false, [7, 8]⟩ : BoundList Int) rfl 0).2.2⟩

/-- C6: on an attached list inside a write transaction, `Append` with at
least one argument whose coercions all succeed appends the values in
argument order after the unchanged original elements and returns the new
length `L + n`; a call with zero arguments fails with
`ArgumentCountError`. -/
theorem push_spec {α : Type} (l : BoundList α) (h1 : l.attached = true)
    (h2 : l.inTransaction = true) (vals : List α) (hv : vals ≠ []) :
    ArrayPush l (vals.map some) =
      (MutRet.num (l.elems.length + vals.length), { l with elems := l.elems ++ vals }) ∧
    ArrayPush l [] = (MutRet.error Exc.argumentCount, l) := by
  have hlen : ¬ (vals.map some).length < 1 := by
    rcases vals with _ | ⟨a, t⟩
    · exact absurd rfl hv
    · simp
  constructor
  · simp [ArrayPush, RJSVerifiedMutableArray, RJSVerifiedArray, verify_attached,
      h1, h2, hlen, hv, pushLoop_ok]
  · simp [ArrayPush, RJSVerifiedMutableArray, RJSVerifiedArray, verify_attached, h1, h2]

theorem push_spec_witness :
    ArrayPush (⟨true, true, [1, 2]⟩ : BoundList Int) [some 3, some 4] =
        (MutRet.num 4, ⟨true, true, [1, 2, 3, 4]⟩) ∧
    ArrayPush (⟨true, true, [1, 2]⟩ : BoundList Int) [] =
        (MutRet.error Exc.argumentCount, ⟨true, true, [1, 2]⟩) :=
  push_spec (⟨true, true, [1, 2]⟩ : BoundList Int) rfl rfl [3, 4] (by decide)

/-- C7: on an attached list inside a write transaction, `Prepend` with at
least one argument whose coercions all succeed inserts the values at the
leading offsets with argument order preserved as final order, followed by
the pre-existing elements in their original order, and returns the new
length; a call with zero arguments fails with `ArgumentCountError`. -/
theorem unshift_spec {α : Type} (l : BoundList α) (h1 : l.attached = true)
    (h2 : l.inTransaction = true) (vals : List α) (hv : vals ≠ []) :
    ArrayUnshift l (vals.map some) =
      (MutRet.num (vals.length + l.elems.length), { l with elems := vals ++ l.elems }) ∧
    ArrayUnshift l [] = (MutRet.error Exc.argumentCount, l) := by
  have hlen : ¬ (vals.map some).length < 1 := by
    rcases vals with _ | ⟨a, t⟩
    · exact absurd rfl hv
    · simp
  have hloop := insertLoop_ok 0 vals 0 l.elems (by omega)
  simp only [Nat.add_zero, Nat.zero_add, List.take_zero, List.drop_zero,
    List.nil_append] at hloop
  constructor
  · simp [ArrayUnshift, RJSVerifiedMutableArray, RJSVerifiedArray, verify_attached,
      h1, h2, hlen, hv, hloop]
  · simp [ArrayUnshift, RJSVerifiedMutableArray, RJSVerifiedArray, verify_attached, h1, h2]

theorem unshift_spec_witness :
    ArrayUnshift (⟨true, true, [1, 2]⟩ : BoundList Int) [some 3, some 4] =
        (MutRet.num 4, ⟨true, true, [3, 4, 1, 2]⟩) ∧
    ArrayUnshift (⟨true, true, [1, 2]⟩ : BoundList Int) [] =
        (MutRet.error Exc.argumentCount, ⟨true, true, [1, 2]⟩) :=
  unshift_spec (⟨true, true, [1, 2]⟩ : BoundList Int) rfl rfl [3, 4] (by decide)

/-- C8: on an attached list inside a write transaction, `RemoveLast` and
`RemoveFirst` on an empty list return no value (`undefined`, not an
error) and leave the list empty; on a non-empty list they return the
element at the last offset (respectively offset 0) and remove exactly
that slot, so `RemoveFirst()` then `RemoveLast()` on `[x, y, z]` returns
`x` then `z` and leaves `[y]`. -/
theorem pop_shift_spec {α : Type} (l : BoundList α) (h1 : l.attached = true)
    (h2 : l.inTransaction = true) :
    (l.elems = [] →
        ArrayPop l 0 = (MutRet.undef, l) ∧ ArrayShift l 0 = (MutRet.undef, l)) ∧
    (∀ hne : l.elems ≠ [],
        ArrayPop l 0 =
          (MutRet.obj (l.elems.getLast hne), { l with elems := l.elems.dropLast }) ∧
        ArrayShift l 0 =
          (MutRet.obj (l.elems.head hne), { l with elems := l.elems.tail })) ∧
    (∀ x y z : α,
        ArrayShift (⟨true, true, [x, y, z]⟩ : BoundList α) 0 =
          (MutRet.obj x, ⟨true, true, [y, z]⟩) ∧
        ArrayPop (⟨true, true, [y, z]⟩ : BoundList α) 0 =
          (MutRet.obj z, ⟨true, true, [y]⟩)) := by
  refine ⟨?_, ?_, ?_⟩
  · intro he
    constructor <;>
      simp [ArrayPop, ArrayShift, RJSVerifiedMutableArray, RJSVerifiedArray,
        verify_attached, h1, h2, he]
  · intro hne
    have hl0 : l.elems.length ≠ 0 := fun h0 => hne (List.length_eq_zero.mp h0)
    constructor
    · have hg : l.elems[l.elems.length - 1]? = some (l.elems.getLast hne) := by
        rw [← List.getLast?_eq_getElem?, List.getLast?_eq_getLast_of_ne_nil hne]
      have hr : lvRemove l.elems (l.elems.length - 1) = l.elems.dropLast := by
        unfold lvRemove
        have hd : l.elems.length - 1 + 1 = l.elems.length := by omega
        rw [hd, List.drop_eq_nil_of_le (by omega), List.dropLast_eq_take]
        simp
      simp [ArrayPop, RJSVerifiedMutableArray, RJSVerifiedArray, verify_attached,
        h1, h2, hl0, listGet, hg, hr]
    · obtain ⟨a, t, hat⟩ := List.exists_cons_of_ne_nil hne
      simp [ArrayShift, RJSVerifiedMutableArray, RJSVerifiedArray, verify_attached,
        h1, h2, hat, listGet, lvRemove]
  · intro x y z
    constructor <;>
      simp [ArrayPop, ArrayShift, RJSVerifiedMutableArray, RJSVerifiedArray,
        verify_attached, listGet, lvRemove]

theorem pop_shift_spec_witness :
    ArrayPop (⟨true, true, []⟩ : BoundList Int) 0 =
        (MutRet.undef, ⟨true, true, []⟩) ∧
    ArrayShift (⟨true, true, [5, 6, 7]⟩ : BoundList Int) 0 =
        (MutRet.obj 5, ⟨true, true, [6, 7]⟩) ∧
    ArrayPop (⟨true, true, [6, 7]⟩ : BoundList Int) 0 =
        (MutRet.obj 7, ⟨true, true, [6]⟩) :=
  ⟨((pop_shift_spec (⟨true, true, []⟩ : BoundList Int) rfl rfl).1 rfl).1,
   ((pop_shift_spec (⟨true, true, [5, 6, 7]⟩ : BoundList Int) rfl rfl).2.2 5 6 7).1,
   ((pop_shift_spec (⟨true, true, [5, 6, 7]⟩ : BoundList Int) rfl rfl).2.2 5 6 7).2⟩

/-- C9: for `Append` and `Prepend` on an attached list inside a write
transaction, if coercion of one argument fails, the elements produced
from the earlier arguments remain applied to the collection, no later
argument is applied, and the coercion error is surfaced — no rollback. -/
theorem coercion_failure_partial {α : Type} (l : BoundList α) (h1 : l.attached = true)
    (h2 : l.inTransaction = true) (good : List α) (rest : List (Option α)) :
    ArrayPush l (good.map some ++ none :: rest) =
      (MutRet.error Exc.coercion, { l with elems := l.elems ++ good }) ∧
    ArrayUnshift l (good.map some ++ none :: rest) =
      (MutRet.error Exc.coercion, { l with elems := good ++ l.elems }) := by
  have hlen : ¬ (good.map some ++ none :: rest).length < 1 := by simp
  have hpush := pushLoop_err good rest l.elems
  have hins := insertLoop_err 0 good rest 0 l.elems (by omega)
  simp only [Nat.add_zero, Nat.zero_add, List.take_zero, List.drop_zero,
    List.nil_append] at hins
  constructor
  · simp [ArrayPush, RJSVerifiedMutableArray, RJSVerifiedArray, verify_attached,
      h1, h2, hlen, hpush]
  · simp [ArrayUnshift, RJSVerifiedMutableArray, RJSVerifiedArray, verify_attached,
      h1, h2, hlen, hins]

theorem coercion_failure_partial_witness :
    ArrayPush (⟨true, true, [1]⟩ : BoundList Int) [some 2, none, some 3] =
        (MutRet.error Exc.coercion, ⟨true, true, [1, 2]⟩) ∧
    ArrayUnshift (⟨true, true, [1]⟩ : BoundList Int) [some 2, none, some 3] =
        (MutRet.error Exc.coercion, ⟨true, true, [2, 1]⟩) :=
  coercion_failure_partial (⟨true, true, [1]⟩ : BoundList Int) rfl rfl [2] [some 3]

/-- C10: on an attached list inside a write transaction, `RemoveLast`
and `RemoveFirst` invoked with one or more arguments fail with an
argument-count error before any element is read or removed, leaving the
collection unchanged — including on an empty list. -/
theorem pop_shift_extra_args {α : Type} (l : BoundList α) (h1 : l.attached = true)
    (h2 : l.inTransaction = true) (n : Nat) (hn : n ≠ 0) :
    ArrayPop l n = (MutRet.error Exc.argumentCount, l) ∧
    ArrayShift l n = (MutRet.error Exc.argumentCount, l) := by
  constructor <;>
    simp [ArrayPop, ArrayShift, RJSVerifiedMutableArray, RJSVerifiedArray,
      verify_attached, h1, h2, hn]

theorem pop_shift_extra_args_witness :
    ArrayPop (⟨true, true, []⟩ : BoundList Int) 1 =
        (MutRet.error Exc.argumentCount, ⟨true, true, []⟩) ∧
    ArrayShift (⟨true, true, []⟩ : BoundList Int) 1 =
        (MutRet.error Exc.argumentCount, ⟨true, true, []⟩) :=
  pop_shift_extra_args (⟨true, true, []⟩ : BoundList Int) rfl rfl 1 (by decide)

lemma splice_attached {α : Type} (elems vals : List α) (start deleteCount : Int) :
    ArraySplice (⟨true, true, elems⟩ : BoundList α) start deleteCount (vals.map some) =
      (MutRet.arr ((elems.drop (spliceIndex elems.length start)).take
          (spliceRemoveCount elems.length (spliceIndex elems.length start) deleteCount)),
        ⟨true, true,
          elems.take (spliceIndex elems.length start) ++ vals ++
            elems.drop (spliceIndex elems.length start +
              spliceRemoveCount elems.length (spliceIndex elems.length start) deleteCount)⟩) := by
  have hsle := spliceIndex_le elems.length start
  generalize hsgen : spliceIndex elems.length start = s at hsle ⊢
  have hdle := spliceRemoveCount_le elems.length s deleteCount hsle
  generalize hdgen : spliceRemoveCount elems.length s deleteCount = d at hdle ⊢
  have hrem := removeLoop_ok s d elems hdle
  have hes : s + 0 ≤ (elems.take s ++ elems.drop (s + d)).length := by
    simp
    omega
  have hins := insertLoop_ok s vals 0 (elems.take s ++ elems.drop (s + d)) hes
  have hlen : (elems.take s).length = s := by simp; omega
  have htk : (elems.take s ++ elems.drop (s + d)).take s = elems.take s := by
    rw [List.take_append_eq_append_take, hlen]
    simp [List.take_take]
  have hdr : (elems.take s ++ elems.drop (s + d)).drop s = elems.drop (s + d) := by
    rw [List.drop_append_eq_append_drop, hlen]
    have h0 : (elems.take s).drop s = [] := List.drop_eq_nil_of_le (by omega)
    rw [h0]
    simp
  simp [ArraySplice, RJSVerifiedMutableArray, RJSVerifiedArray, verify_attached,
    hsgen, hdgen, hrem, hins, htk, hdr]

/-- C2: for every list and every `Splice(start, deleteCount, insert…)`
call with at least two arguments and all insert coercions succeeding:
the start is clamped to `max(length + start, 0)` when negative and to
`min(start, length)` otherwise; the delete count is clamped to
`max(0, min(deleteCount, length - start))`; exactly the clamped number of
elements beginning at the clamped start are removed (all removals before
any insertion), the remaining arguments are inserted at the clamped
start in argument order, and the removed elements are returned in
removal order, even when empty.  In particular `Splice(1, 2, a, b)` on
`[0, 1, 2, 3, 4]` returns `[1, 2]` and leaves `[0, a, b, 3, 4]`. -/
theorem splice_spec {α : Type} (elems vals : List α) (start deleteCount : Int) :
    ArraySplice (⟨true, true, elems⟩ : BoundList α) start deleteCount (vals.map some) =
      (MutRet.arr ((elems.drop (specClampStart elems.length start)).take
          (specClampDelete elems.length (specClampStart elems.length start) deleteCount)),
        ⟨true, true,
          elems.take (specClampStart elems.length start) ++ vals ++
            elems.drop (specClampStart elems.length start +
              specClampDelete elems.length (specClampStart elems.length start) deleteCount)⟩) ∧
    ArraySplice (⟨true, true, [0, 1, 2, 3, 4]⟩ : BoundList Int) 1 2 [some 10, some 11] =
      (MutRet.arr [1, 2], ⟨true, true, [0, 10, 11, 3, 4]⟩) := by
  constructor
  · have h := splice_attached elems vals start deleteCount
    rw [spliceIndex_eq_spec] at h
    rw [spliceRemoveCount_eq_spec elems.length (specClampStart elems.length start)
      deleteCount (by rw [← spliceIndex_eq_spec]; exact spliceIndex_le elems.length start)] at h
    exact h
  · decide

end RJSArray
